import Mathlib

/-!
Shallow embedding of the code-generation core of the AssemblyScript-style compiler
(src/compiler.ts) and proofs about its specified behaviour. IR nodes produced via the
external IR builder are modelled as an inductive expression tree; results of external
collaborators (the resolver, the Flow analysis, the AST predicates, the util library)
are passed in as explicit parameters or modelled from the specification where noted.
-/

namespace AScomp

/-- WebAssembly IR native value types as used by the IR builder. -/
inductive NativeType where
  | I32
  | I64
  | F32
  | F64
  | NoneT
deriving DecidableEq, Repr

/-- Unary IR operators used by the modelled compiler paths. -/
inductive UnaryIrOp where
  | PromoteF32
  | DemoteF64
  | TruncF32ToI32
  | TruncF32ToI64
  | TruncF32ToU32
  | TruncF32ToU64
  | TruncF64ToI32
  | TruncF64ToI64
  | TruncF64ToU32
  | TruncF64ToU64
  | ConvertI32ToF32
  | ConvertI32ToF64
  | ConvertU32ToF32
  | ConvertU32ToF64
  | ConvertI64ToF32
  | ConvertI64ToF64
  | ConvertU64ToF32
  | ConvertU64ToF64
  | WrapI64
  | ExtendI32
  | ExtendU32
  | ExtendI8ToI32
  | ExtendI16ToI32
deriving DecidableEq, Repr

/-- Binary IR operators used by the modelled compiler paths. -/
inductive BinaryIrOp where
  | AddI32
  | SubI32
  | AndI32
  | ShlI32
  | ShrI32
  | ShrU32
  | ShrI64
  | ShrU64
deriving DecidableEq, Repr

/-- IR expression nodes as created by the IR builder (module.createXxx). Float
constants are carried as raw bit patterns; no floating-point semantics is needed. -/
inductive Expr where
  | i32const (value : Nat)
  | i64const (low high : Nat)
  | f32const (bits : Nat)
  | f64const (bits : Nat)
  | unary (op : UnaryIrOp) (operand : Expr)
  | binary (op : BinaryIrOp) (left right : Expr)
  | getLocal (index : Nat) (type : NativeType)
  | getGlobal (name : String) (type : NativeType)
  | setGlobal (name : String) (value : Expr)
  | call (target : String) (operands : List Expr) (returnType : NativeType)
  | callImport (target : String) (operands : List Expr) (returnType : NativeType)
  | block (label : Option String) (children : List Expr) (type : NativeType)
  | drop (operand : Expr)
  | unreachable
deriving Repr

/-- Type kinds of the source language's type lattice. -/
inductive TypeKind where
  | i8
  | u8
  | i16
  | u16
  | i32
  | u32
  | i64
  | u64
  | isize
  | usize
  | f32
  | f64
  | bool
  | void
deriving DecidableEq, Repr

/-- A source-level type: its kind plus, for the pointer-sized kinds isize/usize,
whether the target is WASM64 (which decides their width). -/
structure Type' where
  kind : TypeKind
  ptr64 : Bool
deriving DecidableEq, Repr

/-- TypeFlags.FLOAT of the given type. -/
def Type'.isFloat (t : Type') : Bool :=
  match t.kind with
  | .f32 | .f64 => true
  | _ => false

/-- TypeFlags.INTEGER of the given type (all integer kinds including bool and the
pointer-sized kinds). -/
def Type'.isInteger (t : Type') : Bool :=
  match t.kind with
  | .i8 | .u8 | .i16 | .u16 | .i32 | .u32 | .i64 | .u64 | .isize | .usize | .bool => true
  | _ => false

/-- TypeFlags.LONG of the given type (64-bit wide). -/
def Type'.isLong (t : Type') : Bool :=
  match t.kind with
  | .i64 | .u64 => true
  | .isize | .usize => t.ptr64
  | _ => false

/-- TypeFlags.SIGNED of the given type (floats carry the SIGNED flag as well). -/
def Type'.isSigned (t : Type') : Bool :=
  match t.kind with
  | .i8 | .i16 | .i32 | .i64 | .isize | .f32 | .f64 => true
  | _ => false

/-- TypeFlags.SHORT of the given type (small integers narrower than 32 bits). -/
def Type'.isShort (t : Type') : Bool :=
  match t.kind with
  | .i8 | .u8 | .i16 | .u16 | .bool => true
  | _ => false

/-- Type#size: the type's size in bits (bool has size 1). -/
def Type'.sizeBits (t : Type') : Nat :=
  match t.kind with
  | .bool => 1
  | .i8 | .u8 => 8
  | .i16 | .u16 => 16
  | .i32 | .u32 | .f32 => 32
  | .i64 | .u64 | .f64 => 64
  | .isize | .usize => if t.ptr64 then 64 else 32
  | .void => 0

/-- Type#toNativeType: the IR-level native type backing the source type. -/
def Type'.toNativeType (t : Type') : NativeType :=
  match t.kind with
  | .i64 | .u64 => .I64
  | .isize | .usize => if t.ptr64 then .I64 else .I32
  | .f32 => .F32
  | .f64 => .F64
  | .void => .NoneT
  | _ => .I32

/-- Type#toNativeZero: the zero constant of the type's native type. -/
def Type'.toNativeZero (t : Type') : Expr :=
  match t.toNativeType with
  | .I64 => .i64const 0 0
  | .F32 => .f32const 0
  | .F64 => .f64const 0
  | _ => .i32const 0

/-- Conversion kinds of Compiler#convertExpression. -/
inductive ConversionKind where
  | NONE
  | IMPLICIT
  | EXPLICIT
deriving DecidableEq, Repr

/-- Wrap modes of Compiler#convertExpression. -/
inductive WrapMode where
  | NONE
  | WRAP
deriving DecidableEq, Repr

/-- Diagnostic codes emitted by the modelled compiler paths. -/
inductive DiagnosticCode where
  | Operation_not_supported
  | Type_0_is_not_assignable_to_type_1
  | Conversion_from_type_0_to_1_requires_an_explicit_cast
  | In_const_enum_declarations_member_initializer_must_be_constant_expression
  | Enum_member_must_have_initializer
  | The_0_operator_cannot_be_applied_to_type_1
  | Optional_parameter_must_have_an_initializer
deriving DecidableEq, Repr

/-- Shallow embedding of Compiler#ensureSmallIntegerWrap. The Flow's canOverflow
predicate (the Flow class lives outside the embedded file) and the SIGN_EXTENSION
feature test of the options are passed in as parameters. -/
def ensureSmallIntegerWrap (canOverflow : Expr → TypeKind → Bool)
    (hasSignExtension : Bool) (expr : Expr) (kind : TypeKind) : Expr :=
  match kind with
  | .i8 =>
    if canOverflow expr .i8 then
      if hasSignExtension then
        .unary .ExtendI8ToI32 expr
      else
        .binary .ShrI32 (.binary .ShlI32 expr (.i32const 24)) (.i32const 24)
    else expr
  | .i16 =>
    if canOverflow expr .i16 then
      if hasSignExtension then
        .unary .ExtendI16ToI32 expr
      else
        .binary .ShrI32 (.binary .ShlI32 expr (.i32const 16)) (.i32const 16)
    else expr
  | .u8 =>
    if canOverflow expr .u8 then .binary .AndI32 expr (.i32const 0xff) else expr
  | .u16 =>
    if canOverflow expr .u16 then .binary .AndI32 expr (.i32const 0xffff) else expr
  | .bool =>
    if canOverflow expr .bool then .binary .AndI32 expr (.i32const 0x1) else expr
  | _ => expr

/-- Shallow embedding of Compiler#convertExpression. The result of
fromType.isAssignableTo(toType), resolved by the external Type class, is the
parameter assignable; the two leading assertions (conversion kind is not NONE,
never void to void) are modelled as a none result. Returns the emitted diagnostics
together with the produced expression. -/
def convertExpression (canOverflow : Expr → TypeKind → Bool) (hasSignExtension : Bool)
    (assignable : Bool) (expr : Expr) (fromType toType : Type')
    (conversionKind : ConversionKind) (wrapMode : WrapMode) :
    Option (List DiagnosticCode × Expr) :=
  if conversionKind = ConversionKind.NONE then none
  else if fromType.kind = TypeKind.void then
    -- void to any: convertExpression should not be called with void to void
    if toType.kind = TypeKind.void then none
    else some ([DiagnosticCode.Type_0_is_not_assignable_to_type_1], Expr.unreachable)
  else if toType.kind = TypeKind.void then
    -- any to void
    some ([], Expr.drop expr)
  else
    let diags : List DiagnosticCode :=
      if ¬ assignable ∧ conversionKind = ConversionKind.IMPLICIT then
        [DiagnosticCode.Conversion_from_type_0_to_1_requires_an_explicit_cast]
      else []
    let stage :=
      if fromType.isFloat then
        if toType.isFloat then
          if fromType.kind = TypeKind.f32 then
            if toType.kind = TypeKind.f64 then (Expr.unary .PromoteF32 expr, wrapMode)
            else (expr, wrapMode)
          else
            if toType.kind = TypeKind.f32 then (Expr.unary .DemoteF64 expr, wrapMode)
            else (expr, wrapMode)
        else if toType.isInteger then
          if fromType.kind = TypeKind.f32 then
            if toType.isSigned then
              if toType.isLong then (Expr.unary .TruncF32ToI64 expr, wrapMode)
              else (Expr.unary .TruncF32ToI32 expr, wrapMode)
            else
              if toType.isLong then (Expr.unary .TruncF32ToU64 expr, wrapMode)
              else (Expr.unary .TruncF32ToU32 expr, wrapMode)
          else
            if toType.isSigned then
              if toType.isLong then (Expr.unary .TruncF64ToI64 expr, wrapMode)
              else (Expr.unary .TruncF64ToI32 expr, wrapMode)
            else
              if toType.isLong then (Expr.unary .TruncF64ToU64 expr, wrapMode)
              else (Expr.unary .TruncF64ToU32 expr, wrapMode)
        else
          -- float to void is unreachable here: the void destination returns above
          (Expr.drop expr, wrapMode)
      else if fromType.isInteger ∧ toType.isFloat then
        if toType.kind = TypeKind.f32 then
          if fromType.isLong then
            (Expr.unary (if fromType.isSigned then .ConvertI64ToF32 else .ConvertU64ToF32) expr,
              wrapMode)
          else
            (Expr.unary (if fromType.isSigned then .ConvertI32ToF32 else .ConvertU32ToF32) expr,
              wrapMode)
        else
          if fromType.isLong then
            (Expr.unary (if fromType.isSigned then .ConvertI64ToF64 else .ConvertU64ToF64) expr,
              wrapMode)
          else
            (Expr.unary (if fromType.isSigned then .ConvertI32ToF64 else .ConvertU32ToF64) expr,
              wrapMode)
      else
        -- int to int
        if fromType.isLong then
          if ¬ toType.isLong then (Expr.unary .WrapI64 expr, wrapMode)
          else (expr, wrapMode)
        else if toType.isLong then
          (Expr.unary (if fromType.isSigned then .ExtendI32 else .ExtendU32)
            (ensureSmallIntegerWrap canOverflow hasSignExtension expr fromType.kind),
            WrapMode.NONE)
        else
          if fromType.isShort ∧ fromType.sizeBits < toType.sizeBits then
            (ensureSmallIntegerWrap canOverflow hasSignExtension expr fromType.kind,
              WrapMode.NONE)
          else (expr, wrapMode)
    some (diags,
      if stage.2 = WrapMode.WRAP then
        ensureSmallIntegerWrap canOverflow hasSignExtension stage.1 toType.kind
      else stage.1)

/-- Shallow embedding of the operand-type switch compiling the unsigned
right-shift operator (Token.GREATERTHAN_GREATERTHAN_GREATERTHAN and its compound
form) in Compiler#compileBinaryExpression, including the missing break after the
BOOL case. Returns the resulting expression, the list of ShrU32 nodes created
while the switch executes (in creation order), and the emitted diagnostics. -/
def compileShrUSwitch (isWasm64 : Bool) (kind : TypeKind) (leftExpr rightExpr : Expr) :
    Expr × List Expr × List DiagnosticCode :=
  match kind with
  | .u8 | .u16 | .bool =>
    -- the U8/U16/BOOL case creates a ShrU32 node and, lacking a break, falls
    -- through into the I8/I16/I32/U32 case, which creates a second ShrU32 node
    -- that overwrites expr
    let first := Expr.binary .ShrU32 leftExpr rightExpr
    let second := Expr.binary .ShrU32 leftExpr rightExpr
    (second, [first, second], [])
  | .i8 | .i16 | .i32 | .u32 =>
    let e := Expr.binary .ShrU32 leftExpr rightExpr
    (e, [e], [])
  | .i64 | .u64 =>
    (Expr.binary .ShrU64 leftExpr rightExpr, [], [])
  | .usize | .isize =>
    (Expr.binary (if isWasm64 then .ShrU64 else .ShrU32) leftExpr rightExpr, [], [])
  | .f32 | .f64 =>
    (Expr.unreachable, [], [DiagnosticCode.The_0_operator_cannot_be_applied_to_type_1])
  | .void =>
    -- default case: assert(false); expr = createUnreachable()
    (Expr.unreachable, [], [])

/-! ### Memory layout -/

/-- Modulus of the 64-bit arithmetic of the i64 helpers of the util library. -/
def i64Mod : Nat := 2 ^ 64

/-- i64_align(value, alignment) of the util library (outside the embedded file):
for a power-of-two alignment it computes (value + mask) and-not mask with
mask = alignment - 1, i.e. it clears the low bits of value + (alignment - 1);
arithmetic is 64-bit. Clearing the low bits of v is v - v % alignment. -/
def i64Align (value alignment : Nat) : Nat :=
  let v := (value + (alignment - 1)) % i64Mod
  v - v % alignment

/-- i64_low of the util library: the low 32 bits. -/
def i64Low (value : Nat) : Nat := value % 2 ^ 32

/-- A static data buffer (the Uint8Array passed to addMemorySegment): its byte
size and its contents as a function from byte index to byte value. -/
structure ByteBuf where
  size : Nat
  byteAt : Nat → Nat

/-- MemorySegment.create(buffer, offset): a buffer placed at a fixed offset. -/
structure MemorySegment where
  buffer : ByteBuf
  offset : Nat

/-- The compiler state touched by addMemorySegment: the current static memory
offset and the list of memory segments. -/
structure MemoryState where
  memoryOffset : Nat
  memorySegments : List MemorySegment

/-- Shallow embedding of Compiler#addMemorySegment (the source's default
alignment argument is 8; callers here always pass it explicitly). -/
def addMemorySegment (st : MemoryState) (buffer : ByteBuf) (alignment : Nat) :
    MemoryState × MemorySegment :=
  let memoryOffset := i64Align st.memoryOffset alignment
  let segment : MemorySegment := { buffer := buffer, offset := memoryOffset }
  ({ memoryOffset := (memoryOffset + buffer.size) % i64Mod,
     memorySegments := st.memorySegments ++ [segment] },
   segment)

/-- Shallow embedding of the initial-page computation at the end of
Compiler#compile: numPages is i64_low(i64_shr_u(i64_align(memoryOffset, 0x10000), 16))
when at least one memory segment exists and 0 otherwise, where memoryOffset has
already been aligned to the pointer size. -/
def initialMemoryPages (numSegments : Nat) (memoryOffset : Nat) : Nat :=
  if numSegments ≠ 0 then i64Low (i64Align memoryOffset 0x10000 / 2 ^ 16) else 0

/-! ### Static strings -/

/-- writeI32 of the util library: writes the four little-endian bytes of value
into the buffer starting at offset ptr. -/
def writeI32 (value : Nat) (buf : Nat → Nat) (ptr : Nat) : Nat → Nat :=
  fun i => if ptr ≤ i ∧ i < ptr + 4 then value / 2 ^ (8 * (i - ptr)) % 256 else buf i

/-- writeI16 of the util library: writes the two little-endian bytes of value
into the buffer starting at offset ptr. -/
def writeI16 (value : Nat) (buf : Nat → Nat) (ptr : Nat) : Nat → Nat :=
  fun i => if ptr ≤ i ∧ i < ptr + 2 then value / 2 ^ (8 * (i - ptr)) % 256 else buf i

/-- The code-unit loop of Compiler#ensureStaticString: writes the UTF-16 code
units of the string, two bytes each, starting at offset pos. -/
def writeStringChars (units : List Nat) (pos : Nat) (buf : Nat → Nat) : Nat → Nat :=
  match units with
  | [] => buf
  | u :: rest => writeStringChars rest (pos + 2) (writeI16 u buf pos)

/-- Program-level inputs of ensureStaticString that are resolved outside the
embedded file: the GC configuration of the program, the String class layout
(its currentMemoryOffset and the offset of its length field), the hook index
returned by the ensureGCHook builtin for the String class, and the target. -/
structure ProgramEnv where
  hasGC : Bool
  gcHeaderSize : Nat
  gcHookOffset : Nat
  gcHookIndex : Nat
  stringInstanceMemoryOffset : Nat
  stringLengthFieldOffset : Nat
  isWasm64 : Bool

/-- The compiler state touched by ensureStaticString: the memory state plus the
string-to-segment canonicalisation map (newest entry first). Strings are
modelled as lists of UTF-16 code units. -/
structure CompilerMemory where
  mem : MemoryState
  stringSegments : List (List Nat × MemorySegment)

/-- Builds the pointer expression returned by ensureStaticString: an i64 constant
on wasm64, else an i32 constant guarded by the assert that the offset fits u32
(modelled as none on failure). -/
def makeStringPointer (env : ProgramEnv) (st : CompilerMemory) (stringOffset : Nat) :
    Option (CompilerMemory × Nat × Expr) :=
  if env.isWasm64 then
    some (st, stringOffset, Expr.i64const (stringOffset % 2 ^ 32) (stringOffset / 2 ^ 32))
  else if stringOffset < 2 ^ 32 then
    some (st, stringOffset, Expr.i32const stringOffset)
  else none

/-- The number of bytes the string body is displaced by in ensureStaticString:
gcHeaderSize when the program has GC, 0 otherwise. -/
def stringGCPart (env : ProgramEnv) : Nat :=
  if env.hasGC then env.gcHeaderSize else 0

/-- The headerSize local of ensureStaticString:
(stringInstance.currentMemoryOffset + 1) and-not 1, i.e. rounded up to 2. -/
def stringHeaderSize (env : ProgramEnv) : Nat :=
  (env.stringInstanceMemoryOffset + 1) - (env.stringInstanceMemoryOffset + 1) % 2

/-- The contents of the buffer built by ensureStaticString: a zeroed Uint8Array
into which it writes, in order, the GC hook index at gcHookOffset (when the
program has GC), the length as an i32 at the length field's offset within the
string header, and the UTF-16 code units two bytes each after the header. -/
def stringBufferBytes (env : ProgramEnv) (stringValue : List Nat) : Nat → Nat :=
  let initial : Nat → Nat := fun _ => 0
  let withHook :=
    if env.hasGC then writeI32 env.gcHookIndex initial env.gcHookOffset else initial
  let pos := stringGCPart env
  let withLength :=
    writeI32 stringValue.length withHook (pos + env.stringLengthFieldOffset)
  writeStringChars stringValue (pos + stringHeaderSize env) withLength

/-- The buffer built by ensureStaticString, of size
(optional GC header) + headerSize + 2 bytes per code unit. -/
def stringBuf (env : ProgramEnv) (stringValue : List Nat) : ByteBuf :=
  { size := stringGCPart env + (stringHeaderSize env + stringValue.length * 2)
    byteAt := stringBufferBytes env stringValue }

/-- The otherwise-create-it branch of Compiler#ensureStaticString: builds the
buffer, appends it as a memory segment with the default alignment 8, records it
in the canonicalisation map and returns a pointer past the optional GC header. -/
def internString (env : ProgramEnv) (st : CompilerMemory) (stringValue : List Nat) :
    Option (CompilerMemory × Nat × Expr) :=
  let stepped := addMemorySegment st.mem (stringBuf env stringValue) 8
  let st2 : CompilerMemory :=
    { mem := stepped.1, stringSegments := (stringValue, stepped.2) :: st.stringSegments }
  makeStringPointer env st2 (stepped.2.offset + stringGCPart env)

/-- Shallow embedding of Compiler#ensureStaticString. Returns the updated state,
the string offset the returned constant points at, and the pointer expression. -/
def ensureStaticString (env : ProgramEnv) (st : CompilerMemory) (stringValue : List Nat) :
    Option (CompilerMemory × Nat × Expr) :=
  match st.stringSegments.lookup stringValue with
  | some stringSegment =>
    -- the string already exists: reuse it
    makeStringPointer env st (stringSegment.offset + stringGCPart env)
  | none =>
    internString env st stringValue

/-! ### Enums -/

/-- A module-level global as added by module.addGlobal. -/
structure ModuleGlobal where
  name : String
  mutable : Bool
  init : Expr

/-- An enum member as seen by the member loop of Compiler#compileEnum: its
internal name and, when the declaration carries an initializer, the IR
expression produced for it by expression lowering (compileExpression with an
i32 contextual type). -/
structure EnumMember where
  name : String
  initExpr : Option Expr

/-- The compiler state threaded through the member loop of Compiler#compileEnum. -/
structure EnumState where
  previousValue : Option String
  previousValueIsMut : Bool
  globals : List ModuleGlobal
  startFunctionBody : List Expr
  diagnostics : List DiagnosticCode

/-- getExpressionId(expr) == ExpressionId.Const of the IR builder. -/
def Expr.isConst : Expr → Bool
  | .i32const _ => true
  | .i64const _ _ => true
  | .f32const _ => true
  | .f64const _ => true
  | _ => false

/-- Modelled from the spec: the constant interpreter behind the IR builder's
precomputeExpression (module.ts, an external collaborator, spec sections 2, 4.6
and 8 scenario 4). It folds i32 constants, 32-bit additions of foldable
operands, and get_global of an immutable module global whose initializer is an
i32 constant; anything else is not foldable. -/
def evalConstExpr (globals : List ModuleGlobal) : Expr → Option Nat
  | .i32const v => some v
  | .getGlobal g _ =>
    match globals.find? (fun gl => gl.name == g) with
    | some gl =>
      if gl.mutable then none
      else
        match gl.init with
        | .i32const v => some v
        | _ => none
    | none => none
  | .binary .AddI32 a b =>
    match evalConstExpr globals a, evalConstExpr globals b with
    | some x, some y => some ((x + y) % 2 ^ 32)
    | _, _ => none
  | _ => none

/-- Modelled from the spec: module.precomputeExpression of the IR builder
(module.ts, not part of the embedded file): returns the folded constant when the
expression precomputes, the expression unchanged otherwise. -/
def precomputeExpression (globals : List ModuleGlobal) (e : Expr) : Expr :=
  match evalConstExpr globals e with
  | some v => .i32const v
  | none => e

/-- Shallow embedding of one iteration of the member loop of Compiler#compileEnum
for a member of ElementKind.ENUMVALUE. -/
def compileEnumStep (isConst : Bool) (st : EnumState) (member : EnumMember) : EnumState :=
  let staged :=
    match member.initExpr with
    | some e =>
      if e.isConst then (e, false, ([] : List DiagnosticCode))
      else if isConst then
        let e2 := precomputeExpression st.globals e
        if e2.isConst then (e2, false, [])
        else (e2, true,
          [DiagnosticCode.In_const_enum_declarations_member_initializer_must_be_constant_expression])
      else (e, true, [])
    | none =>
      match st.previousValue with
      | none => (Expr.i32const 0, false, [])
      | some prev =>
        let diags :=
          if st.previousValueIsMut then [DiagnosticCode.Enum_member_must_have_initializer]
          else ([] : List DiagnosticCode)
        let e := Expr.binary .AddI32 (.getGlobal prev .I32) (.i32const 1)
        let e2 := precomputeExpression st.globals e
        if e2.isConst then (e2, false, diags)
        else (e2, true,
          diags ++
            (if isConst then
              [DiagnosticCode.In_const_enum_declarations_member_initializer_must_be_constant_expression]
            else []))
  let initExpr := staged.1
  let initInStart := staged.2.1
  let newDiags := staged.2.2
  if initInStart then
    { previousValue := some member.name
      previousValueIsMut := true
      globals := st.globals ++ [{ name := member.name, mutable := true, init := Expr.i32const 0 }]
      startFunctionBody := st.startFunctionBody ++ [Expr.setGlobal member.name initExpr]
      diagnostics := st.diagnostics ++ newDiags }
  else
    { previousValue := some member.name
      previousValueIsMut := false
      globals := st.globals ++ [{ name := member.name, mutable := !isConst, init := initExpr }]
      startFunctionBody := st.startFunctionBody
      diagnostics := st.diagnostics ++ newDiags }

/-- Shallow embedding of the member loop of Compiler#compileEnum over the
enum's ENUMVALUE members in declaration order. -/
def compileEnum (isConst : Bool) (members : List EnumMember) : EnumState :=
  members.foldl (compileEnumStep isConst)
    { previousValue := none, previousValueIsMut := false, globals := [],
      startFunctionBody := [], diagnostics := [] }

/-! ### Function table and trampolines -/

/-- The parts of a Signature used by the function-table bookkeeping. -/
structure FuncSignature where
  parameterTypes : List Type'
  requiredParameters : Nat
  returnType : Type'
deriving DecidableEq, Repr

/-- The parts of a Function element touched by ensureFunctionTableEntry and the
element-level effects of ensureTrampoline: its internal name, signature, the
relevant common flags, the function-table index (-1 when not indexed) and the
memoised trampoline (as an index into the function store). -/
structure FuncRec where
  internalName : String
  signature : FuncSignature
  isCompiled : Bool
  isTrampoline : Bool
  isInstance : Bool
  functionTableIndex : Int
  trampolineRef : Option Nat
deriving DecidableEq, Repr

/-- Placeholder signature used only by the Inhabited instance below. -/
def emptySignature : FuncSignature :=
  { parameterTypes := []
    requiredParameters := 0
    returnType := { kind := TypeKind.void, ptr64 := false } }

instance : Inhabited FuncRec :=
  ⟨{ internalName := ""
     signature := emptySignature
     isCompiled := false
     isTrampoline := false
     isInstance := false
     functionTableIndex := -1
     trampolineRef := none }⟩

/-- The compiler state touched by ensureFunctionTableEntry: a store of function
elements (addressed by index) and the function table of internal names. -/
structure TableState where
  funcs : List FuncRec
  functionTable : List String
deriving DecidableEq, Repr

/-- Element-level shallow embedding of Compiler#ensureTrampoline: returns the
memoised trampoline when present; otherwise creates a function element named
originalName|trampoline carrying the original's flags plus TRAMPOLINE and
COMPILED, whose signature requires all parameters, records it on the original
and returns it. The trampoline's IR body (the argc switch over the
optional-parameter initializers followed by the forwarding call) is emitted
into the module and has no effect on the table bookkeeping modelled here. -/
def ensureTrampoline (st : TableState) (funcId : Nat) : TableState × Nat :=
  let original := st.funcs.getD funcId default
  match original.trampolineRef with
  | some t => (st, t)
  | none =>
    let newId := st.funcs.length
    let trampolineSignature : FuncSignature :=
      { parameterTypes := original.signature.parameterTypes,
        requiredParameters := original.signature.parameterTypes.length,
        returnType := original.signature.returnType }
    let trampoline : FuncRec :=
      { internalName := original.internalName ++ "|trampoline",
        signature := trampolineSignature,
        isCompiled := true,
        isTrampoline := true,
        isInstance := original.isInstance,
        functionTableIndex := -1,
        trampolineRef := none }
    let funcs := (st.funcs ++ [trampoline]).set funcId
      { original with trampolineRef := some newId }
    ({ st with funcs := funcs }, newId)

/-- Shallow embedding of Compiler#ensureFunctionTableEntry. The assert that the
function is compiled is modelled as none. -/
def ensureFunctionTableEntry (st : TableState) (funcId : Nat) : Option (TableState × Int) :=
  let func := st.funcs.getD funcId default
  if ¬ func.isCompiled then none
  else if func.functionTableIndex ≥ 0 then some (st, func.functionTableIndex)
  else
    let index : Int := st.functionTable.length
    let stepped :=
      if ¬ func.isTrampoline ∧
          func.signature.requiredParameters < func.signature.parameterTypes.length then
        -- insert the trampoline if the function has optional parameters
        ensureTrampoline st funcId
      else (st, funcId)
    let entry := stepped.1.funcs.getD stepped.2 default
    some ({ funcs := stepped.1.funcs.set stepped.2 { entry with functionTableIndex := index },
            functionTable := stepped.1.functionTable ++ [entry.internalName] },
          index)

/-! ### Direct calls -/

/-- An optional-parameter initializer as seen by makeCallDirect: whether the AST
node is a syntactically constant value (nodeIsConstantValue of the AST module)
and the IR expression compileExpression produces for it against the parameter
type. -/
structure InitializerNode where
  isConstantValue : Bool
  compiled : Expr

/-- The parts of a Function instance consumed by makeCallDirect: internal name,
signature data, the INSTANCE and MODULE_IMPORT flags, and the declaration's
parameter initializers. -/
structure CallTarget where
  internalName : String
  parameterTypes : List Type'
  requiredParameters : Nat
  returnType : Type'
  isInstance : Bool
  isModuleImport : Bool
  parameterInits : List (Option InitializerNode)

/-- The default type used only to totalise list indexing in the model; the
source indexes within bounds. -/
def defaultType : Type' := { kind := TypeKind.i32, ptr64 := false }

/-- The loop of makeCallDirect testing that every omitted parameter's
initializer exists and is a syntactically constant value. -/
def allOptionalsAreConstant (target : CallTarget) (numArguments maxArguments : Nat) : Bool :=
  (List.range (maxArguments - numArguments)).all fun k =>
    match target.parameterInits.getD (numArguments + k) none with
    | some ini => ini.isConstantValue
    | none => false

/-- The operands appended by makeCallDirect when all omitted initializers are
constant: the compiled initializer of each omitted parameter. -/
def omittedConstantOperands (target : CallTarget) (numArguments maxArguments : Nat) :
    List Expr :=
  (List.range (maxArguments - numArguments)).map fun k =>
    match target.parameterInits.getD (numArguments + k) none with
    | some ini => ini.compiled
    | none => Expr.unreachable

/-- The operands appended by makeCallDirect otherwise: the native zero of each
omitted parameter's type. -/
def omittedZeroOperands (target : CallTarget) (numArguments maxArguments : Nat) :
    List Expr :=
  (List.range (maxArguments - numArguments)).map fun k =>
    (target.parameterTypes.getD (numArguments + k) defaultType).toNativeZero

/-- Shallow embedding of Compiler#makeCallDirect. The success of
this.compileFunction on the callee and (on the trampoline path) on its
trampoline are the parameters compileOk and trampolineOk; the assert
numOperands >= minOperands is modelled as none. The bookkeeping writes on the
trampoline path (copying the flow flags onto the trampoline and registering it
in instancesLookup) have no effect on the returned expression. -/
def makeCallDirect (target : CallTarget) (operands : List Expr)
    (compileOk trampolineOk : Bool) : Option Expr :=
  let numOperands := operands.length
  let minArguments := target.requiredParameters
  let maxArguments := target.parameterTypes.length
  let minOperands := if target.isInstance then minArguments + 1 else minArguments
  let maxOperands := if target.isInstance then maxArguments + 1 else maxArguments
  let numArguments := if target.isInstance then numOperands - 1 else numOperands
  if ¬ (numOperands ≥ minOperands) then none
  else if ¬ compileOk then some Expr.unreachable
  else
    let returnType := target.returnType
    let isCallImport := target.isModuleImport
    if numOperands < maxOperands then
      if allOptionalsAreConstant target numArguments maxArguments then
        -- inline the constant initializers into the call
        let operands2 := operands ++ omittedConstantOperands target numArguments maxArguments
        if isCallImport then
          some (.callImport target.internalName operands2 returnType.toNativeType)
        else
          some (.call target.internalName operands2 returnType.toNativeType)
      else
        -- otherwise fill up with zeroes and call the trampoline
        let operands2 := operands ++ omittedZeroOperands target numArguments maxArguments
        if ¬ isCallImport then
          if ¬ trampolineOk then some Expr.unreachable
          else
            let nativeReturnType := returnType.toNativeType
            some (.block none
              [.setGlobal "~argc" (.i32const numArguments),
               .call (target.internalName ++ "|trampoline") operands2 nativeReturnType]
              nativeReturnType)
        else
          some (.callImport target.internalName operands2 returnType.toNativeType)
    else
      -- otherwise just call through
      if isCallImport then
        some (.callImport target.internalName operands returnType.toNativeType)
      else
        some (.call target.internalName operands returnType.toNativeType)

/-! ### Theorems -/

/-- C3: for the unsigned right-shift operator with common operand type u8, u16
or bool, the switch creates two ShrU32 IR nodes, not exactly one: the missing
break after the BOOL case makes control fall into the signed/32-bit case which
creates a second ShrU32 overwriting the first. The resulting expression is
still ShrU32(left, right), so the first node is simply leaked. -/
theorem compileShrUSwitch_small_unsigned_creates_two_ShrU32
    (isWasm64 : Bool) (leftExpr rightExpr : Expr) :
    compileShrUSwitch isWasm64 TypeKind.u8 leftExpr rightExpr =
      (Expr.binary .ShrU32 leftExpr rightExpr,
        [Expr.binary .ShrU32 leftExpr rightExpr, Expr.binary .ShrU32 leftExpr rightExpr],
        []) ∧
    compileShrUSwitch isWasm64 TypeKind.u16 leftExpr rightExpr =
      (Expr.binary .ShrU32 leftExpr rightExpr,
        [Expr.binary .ShrU32 leftExpr rightExpr, Expr.binary .ShrU32 leftExpr rightExpr],
        []) ∧
    compileShrUSwitch isWasm64 TypeKind.bool leftExpr rightExpr =
      (Expr.binary .ShrU32 leftExpr rightExpr,
        [Expr.binary .ShrU32 leftExpr rightExpr, Expr.binary .ShrU32 leftExpr rightExpr],
        []) ∧
    (compileShrUSwitch isWasm64 TypeKind.u8 leftExpr rightExpr).2.1.length = 2 :=
  ⟨rfl, rfl, rfl, rfl⟩

/-- C7: convertExpression is never called with both types void (the assertion
fires, modelled as none); a non-void source converted to void returns a drop of
the input with no diagnostic; a void source converted to non-void emits the
not-assignable diagnostic and returns an unreachable. -/
theorem convertExpression_void_cases
    (canOverflow : Expr → TypeKind → Bool) (hasSignExtension assignable : Bool)
    (expr : Expr) (fromType toType : Type')
    (conversionKind : ConversionKind) (wrapMode : WrapMode)
    (hkind : conversionKind ≠ ConversionKind.NONE) :
    (fromType.kind = TypeKind.void → toType.kind = TypeKind.void →
      convertExpression canOverflow hasSignExtension assignable expr fromType toType
        conversionKind wrapMode = none) ∧
    (fromType.kind ≠ TypeKind.void → toType.kind = TypeKind.void →
      convertExpression canOverflow hasSignExtension assignable expr fromType toType
        conversionKind wrapMode = some ([], Expr.drop expr)) ∧
    (fromType.kind = TypeKind.void → toType.kind ≠ TypeKind.void →
      convertExpression canOverflow hasSignExtension assignable expr fromType toType
        conversionKind wrapMode =
        some ([DiagnosticCode.Type_0_is_not_assignable_to_type_1], Expr.unreachable)) := by
  refine ⟨fun h1 h2 => ?_, fun h1 h2 => ?_, fun h1 h2 => ?_⟩ <;>
    simp [convertExpression, h1, h2, hkind]

/-- Closed witness for C7: converting i32 to void yields a drop with no
diagnostic, and void to i32 yields the not-assignable diagnostic and an
unreachable. -/
theorem convertExpression_void_cases_witness :
    convertExpression (fun _ _ => true) true true (Expr.getLocal 0 NativeType.I32)
      { kind := TypeKind.i32, ptr64 := false } { kind := TypeKind.void, ptr64 := false }
      ConversionKind.IMPLICIT WrapMode.NONE =
      some ([], Expr.drop (Expr.getLocal 0 NativeType.I32)) ∧
    convertExpression (fun _ _ => true) true true (Expr.getLocal 0 NativeType.I32)
      { kind := TypeKind.void, ptr64 := false } { kind := TypeKind.i32, ptr64 := false }
      ConversionKind.IMPLICIT WrapMode.NONE =
      some ([DiagnosticCode.Type_0_is_not_assignable_to_type_1], Expr.unreachable) := by
  constructor
  · exact (convertExpression_void_cases (fun _ _ => true) true true
      (Expr.getLocal 0 NativeType.I32)
      { kind := TypeKind.i32, ptr64 := false } { kind := TypeKind.void, ptr64 := false }
      ConversionKind.IMPLICIT WrapMode.NONE (by decide)).2.1 (by decide) rfl
  · exact (convertExpression_void_cases (fun _ _ => true) true true
      (Expr.getLocal 0 NativeType.I32)
      { kind := TypeKind.void, ptr64 := false } { kind := TypeKind.i32, ptr64 := false }
      ConversionKind.IMPLICIT WrapMode.NONE (by decide)).2.2 rfl (by decide)

/-- C8: ensureSmallIntegerWrap leaves the expression unchanged when the flow
proves it cannot overflow the type; for i8/i16 it emits the sign-extension
unary op under the SIGN_EXTENSION feature and otherwise a
ShrI32(ShlI32(expr, 32 - width), 32 - width) pair; for u8/u16/bool it masks
with AndI32 against 0xff, 0xffff and 1; every other type is returned
unchanged. -/
theorem ensureSmallIntegerWrap_spec
    (canOverflow : Expr → TypeKind → Bool) (hasSignExtension : Bool)
    (expr : Expr) (kind : TypeKind) :
    (canOverflow expr kind = false →
      ensureSmallIntegerWrap canOverflow hasSignExtension expr kind = expr) ∧
    (canOverflow expr TypeKind.i8 = true →
      ensureSmallIntegerWrap canOverflow hasSignExtension expr TypeKind.i8 =
        if hasSignExtension then Expr.unary .ExtendI8ToI32 expr
        else Expr.binary .ShrI32 (.binary .ShlI32 expr (.i32const 24)) (.i32const 24)) ∧
    (canOverflow expr TypeKind.i16 = true →
      ensureSmallIntegerWrap canOverflow hasSignExtension expr TypeKind.i16 =
        if hasSignExtension then Expr.unary .ExtendI16ToI32 expr
        else Expr.binary .ShrI32 (.binary .ShlI32 expr (.i32const 16)) (.i32const 16)) ∧
    (canOverflow expr TypeKind.u8 = true →
      ensureSmallIntegerWrap canOverflow hasSignExtension expr TypeKind.u8 =
        Expr.binary .AndI32 expr (.i32const 0xff)) ∧
    (canOverflow expr TypeKind.u16 = true →
      ensureSmallIntegerWrap canOverflow hasSignExtension expr TypeKind.u16 =
        Expr.binary .AndI32 expr (.i32const 0xffff)) ∧
    (canOverflow expr TypeKind.bool = true →
      ensureSmallIntegerWrap canOverflow hasSignExtension expr TypeKind.bool =
        Expr.binary .AndI32 expr (.i32const 0x1)) ∧
    (kind ≠ TypeKind.i8 → kind ≠ TypeKind.i16 → kind ≠ TypeKind.u8 →
      kind ≠ TypeKind.u16 → kind ≠ TypeKind.bool →
      ensureSmallIntegerWrap canOverflow hasSignExtension expr kind = expr) := by
  refine ⟨fun h => ?_, fun h => ?_, fun h => ?_, fun h => ?_, fun h => ?_, fun h => ?_,
    fun h1 h2 h3 h4 h5 => ?_⟩ <;>
    cases kind <;> simp_all [ensureSmallIntegerWrap]

/-- Closed witness for C8: with SIGN_EXTENSION an overflowing i8 value is
sign-extended, a u16 value is masked, and a value the flow proves wrapped is
returned unchanged. -/
theorem ensureSmallIntegerWrap_spec_witness :
    ensureSmallIntegerWrap (fun _ _ => true) true (Expr.getLocal 0 NativeType.I32)
      TypeKind.i8 = Expr.unary .ExtendI8ToI32 (Expr.getLocal 0 NativeType.I32) ∧
    ensureSmallIntegerWrap (fun _ _ => true) false (Expr.getLocal 0 NativeType.I32)
      TypeKind.u16 =
      Expr.binary .AndI32 (Expr.getLocal 0 NativeType.I32) (.i32const 0xffff) ∧
    ensureSmallIntegerWrap (fun _ _ => false) false (Expr.getLocal 0 NativeType.I32)
      TypeKind.i8 = Expr.getLocal 0 NativeType.I32 := by
  refine ⟨?_, ?_, ?_⟩
  · have h := (ensureSmallIntegerWrap_spec (fun _ _ => true) true
      (Expr.getLocal 0 NativeType.I32) TypeKind.i8).2.1 rfl
    simpa using h
  · exact (ensureSmallIntegerWrap_spec (fun _ _ => true) false
      (Expr.getLocal 0 NativeType.I32) TypeKind.u16).2.2.2.2.1 rfl
  · exact (ensureSmallIntegerWrap_spec (fun _ _ => false) false
      (Expr.getLocal 0 NativeType.I32) TypeKind.i8).1 rfl

/-- C9: an addMemorySegment call places the new segment at the previous
memoryOffset aligned up to the requested power-of-two alignment (the aligned
offset is a multiple of the alignment and lies in [memoryOffset,
memoryOffset + alignment)), sets memoryOffset to that start offset plus the
buffer length, never decreases memoryOffset, and appends the segment; the
overflow hypotheses keep the 64-bit offset arithmetic exact. -/
theorem addMemorySegment_spec (st : MemoryState) (buffer : ByteBuf) (alignment : Nat)
    (hpow : ∃ k, alignment = 2 ^ k)
    (hnear : st.memoryOffset + (alignment - 1) < i64Mod)
    (hfit : i64Align st.memoryOffset alignment + buffer.size < i64Mod) :
    (addMemorySegment st buffer alignment).2.offset = i64Align st.memoryOffset alignment ∧
    st.memoryOffset ≤ (addMemorySegment st buffer alignment).2.offset ∧
    (addMemorySegment st buffer alignment).2.offset % alignment = 0 ∧
    (addMemorySegment st buffer alignment).2.offset < st.memoryOffset + alignment ∧
    (addMemorySegment st buffer alignment).1.memoryOffset =
      (addMemorySegment st buffer alignment).2.offset + buffer.size ∧
    st.memoryOffset ≤ (addMemorySegment st buffer alignment).1.memoryOffset ∧
    (addMemorySegment st buffer alignment).1.memorySegments =
      st.memorySegments ++ [(addMemorySegment st buffer alignment).2] := by
  obtain ⟨k, rfl⟩ := hpow
  have ha : 0 < 2 ^ k := Nat.pos_pow_of_pos k (by norm_num)
  have hv : (st.memoryOffset + (2 ^ k - 1)) % i64Mod = st.memoryOffset + (2 ^ k - 1) :=
    Nat.mod_eq_of_lt hnear
  have halign : i64Align st.memoryOffset (2 ^ k) =
      st.memoryOffset + (2 ^ k - 1) - (st.memoryOffset + (2 ^ k - 1)) % 2 ^ k := by
    simp [i64Align, hv]
  have hmod : (st.memoryOffset + (2 ^ k - 1)) % 2 ^ k < 2 ^ k :=
    Nat.mod_lt _ ha
  have hdm := Nat.div_add_mod (st.memoryOffset + (2 ^ k - 1)) (2 ^ k)
  have hmul : i64Align st.memoryOffset (2 ^ k) =
      2 ^ k * ((st.memoryOffset + (2 ^ k - 1)) / 2 ^ k) := by
    omega
  have hsegoff : (addMemorySegment st buffer (2 ^ k)).2.offset =
      i64Align st.memoryOffset (2 ^ k) := rfl
  have hnewoff : (addMemorySegment st buffer (2 ^ k)).1.memoryOffset =
      (i64Align st.memoryOffset (2 ^ k) + buffer.size) % i64Mod := rfl
  have hnewoff2 : (addMemorySegment st buffer (2 ^ k)).1.memoryOffset =
      i64Align st.memoryOffset (2 ^ k) + buffer.size := by
    rw [hnewoff]; exact Nat.mod_eq_of_lt hfit
  refine ⟨hsegoff, ?_, ?_, ?_, ?_, ?_, rfl⟩
  · rw [hsegoff, halign]; omega
  · rw [hsegoff, hmul]; exact Nat.mul_mod_right _ _
  · rw [hsegoff, halign]; omega
  · rw [hnewoff2, hsegoff]
  · rw [hnewoff2, halign]; omega

/-- Closed witness for C9: a segment of 5 bytes added at offset 13 with
alignment 8 starts at 16 and advances memoryOffset to 21. -/
theorem addMemorySegment_spec_witness :
    ({ memoryOffset := 13, memorySegments := [] } :
        MemoryState).memoryOffset ≤
      (addMemorySegment { memoryOffset := 13, memorySegments := [] }
        { size := 5, byteAt := fun _ => 0 } 8).2.offset ∧
    (addMemorySegment { memoryOffset := 13, memorySegments := [] }
        { size := 5, byteAt := fun _ => 0 } 8).2.offset % 8 = 0 ∧
    (addMemorySegment { memoryOffset := 13, memorySegments := [] }
        { size := 5, byteAt := fun _ => 0 } 8).1.memoryOffset =
      (addMemorySegment { memoryOffset := 13, memorySegments := [] }
        { size := 5, byteAt := fun _ => 0 } 8).2.offset + 5 := by
  have h := addMemorySegment_spec { memoryOffset := 13, memorySegments := [] }
    { size := 5, byteAt := fun _ => 0 } 8 ⟨3, rfl⟩ (by decide)
    (by simp [i64Align, i64Mod])
  exact ⟨h.2.1, h.2.2.1, h.2.2.2.2.1⟩

/-- C4 counterexample: with no memory segments the module's initial page count
is 0, while the claimed formula ceil(memoryOffset / 65536) gives 1 at the
smallest possible static memory offset 8. -/
theorem initialMemoryPages_zero_segments :
    initialMemoryPages 0 8 = 0 ∧ (8 + 65535) / 65536 = 1 ∧ (0 : Nat) ≠ 1 := by
  refine ⟨?_, by norm_num, by norm_num⟩
  simp [initialMemoryPages]

/-- C4 amended: when at least one memory segment exists, the initial memory
size in 64 KiB pages equals ceil(memoryOffset / 65536), computed here as
(memoryOffset + 65535) / 65536 on the pointer-size-aligned final offset; with
no segments it is 0 (see the counterexample). The hypotheses keep the 64-bit
alignment arithmetic and the 32-bit truncation exact. -/
theorem initialMemoryPages_eq_ceil (numSegments memoryOffset : Nat)
    (hseg : numSegments ≠ 0)
    (hlt : memoryOffset + 65535 < i64Mod)
    (hfit : (memoryOffset + 65535) / 65536 < 2 ^ 32) :
    initialMemoryPages numSegments memoryOffset = (memoryOffset + 65535) / 65536 := by
  have hv : (memoryOffset + 65535) % i64Mod = memoryOffset + 65535 :=
    Nat.mod_eq_of_lt hlt
  have h16 : (2 : Nat) ^ 16 = 65536 := by norm_num
  have h32 : (2 : Nat) ^ 32 = 4294967296 := by norm_num
  simp only [initialMemoryPages, i64Align, i64Low, if_pos hseg, h16, h32]
  rw [show (0x10000 : Nat) - 1 = 65535 from rfl, hv]
  omega

/-- Closed witness for C4: one segment with the offset already aligned to 8
gives ceil(8 / 65536) = 1 initial page. -/
theorem initialMemoryPages_eq_ceil_witness : initialMemoryPages 1 8 = 1 := by
  have h := initialMemoryPages_eq_ceil 1 8 (by decide) (by norm_num [i64Mod]) (by norm_num)
  simpa using h

/-- A compiled non-trampoline function with one required and two declared
parameters, i.e. with an optional parameter, not yet indexed. -/
def optionalParamFunc : FuncRec :=
  { internalName := "f"
    signature :=
      { parameterTypes := [defaultType, defaultType]
        requiredParameters := 1
        returnType := { kind := TypeKind.void, ptr64 := false } }
    isCompiled := true
    isTrampoline := false
    isInstance := false
    functionTableIndex := -1
    trampolineRef := none }

/-- A table state holding only optionalParamFunc and an empty function table. -/
def optionalParamTableState : TableState :=
  { funcs := [optionalParamFunc], functionTable := [] }

/-- C1: ensureFunctionTableEntry is not idempotent for a function with optional
parameters: the first call returns index 0 but records it on the trampoline
(the reassigned local), not on the queried function, so a second call with the
same function appends a second, duplicate table entry and returns index 1. Each
returned index's slot does name the function's trampoline, as the claim's
second half states. -/
theorem ensureFunctionTableEntry_repeated_call_duplicates :
    (do
      let r1 ← ensureFunctionTableEntry optionalParamTableState 0
      let r2 ← ensureFunctionTableEntry r1.1 0
      pure (r1.2, r2.2, r2.1.functionTable)) =
      some (0, 1, ["f|trampoline", "f|trampoline"]) := by
  decide

/-- An imported function with one optional parameter whose initializer is not a
syntactically constant value. -/
def importedOptionalTarget : CallTarget :=
  { internalName := "g"
    parameterTypes := [defaultType]
    requiredParameters := 0
    returnType := { kind := TypeKind.void, ptr64 := false }
    isInstance := false
    isModuleImport := true
    parameterInits := [some { isConstantValue := false, compiled := Expr.getGlobal "x" .I32 }] }

/-- C2 counterexample: for a module-import callee with an omitted operand and a
non-constant initializer, makeCallDirect emits a direct call_import with the
zero-padded operands; it does not produce the claimed block that sets ~argc and
calls the trampoline. -/
theorem makeCallDirect_import_no_trampoline_block :
    makeCallDirect importedOptionalTarget [] true true =
      some (Expr.callImport "g" [Expr.i32const 0] NativeType.NoneT) ∧
    Expr.callImport "g" [Expr.i32const 0] NativeType.NoneT ≠
      Expr.block none
        [Expr.setGlobal "~argc" (Expr.i32const 0),
         Expr.call ("g" ++ "|trampoline") [Expr.i32const 0] NativeType.NoneT]
        NativeType.NoneT :=
  ⟨rfl, fun h => Expr.noConfusion h⟩

/-- C2 amended: makeCallDirect with all operands supplied emits a plain call to
the function itself (call_import for imports); with fewer operands and every
omitted parameter's initializer a syntactically constant value it appends the
compiled constants and calls the function directly; otherwise, for a callee
that is not a module import, it zero-pads the omitted operands, sets the ~argc
global to the number of supplied arguments and calls the trampoline, the two
ops wrapped in a block typed with the function's native return type; a module
imported callee instead gets a direct zero-padded call_import (next theorem). -/
theorem makeCallDirect_spec (target : CallTarget) (operands : List Expr)
    (hmin : operands.length ≥
      (if target.isInstance then target.requiredParameters + 1
       else target.requiredParameters)) :
    (operands.length ≥
        (if target.isInstance then target.parameterTypes.length + 1
         else target.parameterTypes.length) →
      makeCallDirect target operands true true =
        some (if target.isModuleImport then
            Expr.callImport target.internalName operands target.returnType.toNativeType
          else Expr.call target.internalName operands target.returnType.toNativeType)) ∧
    (operands.length <
        (if target.isInstance then target.parameterTypes.length + 1
         else target.parameterTypes.length) →
      allOptionalsAreConstant target
          (if target.isInstance then operands.length - 1 else operands.length)
          target.parameterTypes.length = true →
      makeCallDirect target operands true true =
        some (if target.isModuleImport then
            Expr.callImport target.internalName
              (operands ++ omittedConstantOperands target
                (if target.isInstance then operands.length - 1 else operands.length)
                target.parameterTypes.length)
              target.returnType.toNativeType
          else
            Expr.call target.internalName
              (operands ++ omittedConstantOperands target
                (if target.isInstance then operands.length - 1 else operands.length)
                target.parameterTypes.length)
              target.returnType.toNativeType)) ∧
    (operands.length <
        (if target.isInstance then target.parameterTypes.length + 1
         else target.parameterTypes.length) →
      allOptionalsAreConstant target
          (if target.isInstance then operands.length - 1 else operands.length)
          target.parameterTypes.length = false →
      target.isModuleImport = false →
      makeCallDirect target operands true true =
        some (Expr.block none
          [Expr.setGlobal "~argc"
            (Expr.i32const (if target.isInstance then operands.length - 1
              else operands.length)),
           Expr.call (target.internalName ++ "|trampoline")
            (operands ++ omittedZeroOperands target
              (if target.isInstance then operands.length - 1 else operands.length)
              target.parameterTypes.length)
            target.returnType.toNativeType]
          target.returnType.toNativeType)) := by
  refine ⟨fun h1 => ?_, fun h1 h2 => ?_, fun h1 h2 h3 => ?_⟩
  · cases him : target.isModuleImport <;>
      simp [makeCallDirect, hmin, Nat.not_lt.mpr h1, him]
  · cases him : target.isModuleImport <;>
      simp [makeCallDirect, hmin, h1, h2, him]
  · simp [makeCallDirect, hmin, h1, h2, h3]

/-- A plain (non-import) function with one required parameter and one optional
parameter whose initializer is not a syntactically constant value. -/
def plainOptionalTarget : CallTarget :=
  { internalName := "f"
    parameterTypes := [defaultType, defaultType]
    requiredParameters := 1
    returnType := { kind := TypeKind.void, ptr64 := false }
    isInstance := false
    isModuleImport := false
    parameterInits :=
      [none, some { isConstantValue := false, compiled := Expr.getGlobal "d" .I32 }] }

/-- Closed witness for C2 (amended): calling the two-parameter function with one
operand and a non-constant optional initializer emits the ~argc-setting block
that calls the trampoline with the zero-padded operands. -/
theorem makeCallDirect_spec_witness :
    makeCallDirect plainOptionalTarget [Expr.i32const 5] true true =
      some (Expr.block none
        [Expr.setGlobal "~argc" (Expr.i32const 1),
         Expr.call "f|trampoline" [Expr.i32const 5, Expr.i32const 0] NativeType.NoneT]
        NativeType.NoneT) := by
  have h := (makeCallDirect_spec plainOptionalTarget [Expr.i32const 5]
    (by decide)).2.2 (by decide) rfl rfl
  exact h

/-- C10: for a module-import callee with omitted operands and at least one
non-constant optional initializer, makeCallDirect zero-pads the omitted
operands and emits a direct call_import to the original imported function: the
result does not depend on trampoline compilation, mentions no trampoline and
sets no ~argc global. -/
theorem makeCallDirect_module_import_spec (target : CallTarget) (operands : List Expr)
    (trampolineOk : Bool)
    (himp : target.isModuleImport = true)
    (hmin : operands.length ≥
      (if target.isInstance then target.requiredParameters + 1
       else target.requiredParameters))
    (hmax : operands.length <
      (if target.isInstance then target.parameterTypes.length + 1
       else target.parameterTypes.length))
    (hconst : allOptionalsAreConstant target
      (if target.isInstance then operands.length - 1 else operands.length)
      target.parameterTypes.length = false) :
    makeCallDirect target operands true trampolineOk =
      some (Expr.callImport target.internalName
        (operands ++ omittedZeroOperands target
          (if target.isInstance then operands.length - 1 else operands.length)
          target.parameterTypes.length)
        target.returnType.toNativeType) := by
  simp [makeCallDirect, hmin, hmax, hconst, himp]

/-- Closed witness for C10: the imported function with a non-constant optional
initializer gets a direct zero-padded call_import even when trampoline
compilation would fail. -/
theorem makeCallDirect_module_import_spec_witness :
    makeCallDirect importedOptionalTarget [] true false =
      some (Expr.callImport "g" [Expr.i32const 0] NativeType.NoneT) := by
  have h := makeCallDirect_module_import_spec importedOptionalTarget [] false rfl
    (by decide) (by decide) rfl
  exact h

/-- C6: an enum member without an initializer compiles to the constant 0 when
it is the first member; otherwise its global is initialised with the previous
member's value plus one (the precomputed get_global + 1) when the previous
member is an immutable constant global; and when the previous member had to be
initialised in the start function (previousValueIsMut), a const enum gets the
Enum member must have initializer diagnostic. -/
theorem compileEnum_missing_initializer_spec (isConst : Bool) (st : EnumState)
    (member : EnumMember) (hnoinit : member.initExpr = none) :
    (st.previousValue = none →
      compileEnumStep isConst st member =
        { previousValue := some member.name
          previousValueIsMut := false
          globals := st.globals ++
            [{ name := member.name, mutable := !isConst, init := Expr.i32const 0 }]
          startFunctionBody := st.startFunctionBody
          diagnostics := st.diagnostics }) ∧
    (∀ prev v, st.previousValue = some prev → st.previousValueIsMut = false →
      st.globals.find? (fun gl => gl.name == prev) =
        some { name := prev, mutable := false, init := Expr.i32const v } →
      compileEnumStep isConst st member =
        { previousValue := some member.name
          previousValueIsMut := false
          globals := st.globals ++
            [{ name := member.name, mutable := !isConst,
               init := Expr.i32const ((v + 1) % 2 ^ 32) }]
          startFunctionBody := st.startFunctionBody
          diagnostics := st.diagnostics }) ∧
    (∀ prev, st.previousValue = some prev → st.previousValueIsMut = true →
      isConst = true →
      DiagnosticCode.Enum_member_must_have_initializer ∈
        (compileEnumStep isConst st member).diagnostics) := by
  refine ⟨fun h => ?_, fun prev v h1 h2 hfind => ?_, fun prev h1 h2 h3 => ?_⟩
  · simp [compileEnumStep, hnoinit, h]
  · simp [compileEnumStep, hnoinit, h1, h2, precomputeExpression, evalConstExpr,
      hfind, Expr.isConst]
  · cases hc : (precomputeExpression st.globals
      (Expr.binary .AddI32 (.getGlobal prev .I32) (.i32const 1))).isConst <;>
      simp [compileEnumStep, hnoinit, h1, h2, h3, precomputeExpression, hc,
        List.mem_append] <;>
      simp [precomputeExpression] at hc <;>
      simp [hc]

/-- Closed witness for C6: in a const enum, a first member A without
initializer becomes the immutable constant 0; a following member B without
initializer becomes the immutable constant 1; and after a member that was
initialised in the start function, a member without initializer raises the
Enum member must have initializer diagnostic. -/
theorem compileEnum_missing_initializer_spec_witness :
    compileEnumStep true
      { previousValue := none, previousValueIsMut := false, globals := [],
        startFunctionBody := [], diagnostics := [] }
      { name := "A", initExpr := none } =
      { previousValue := some "A", previousValueIsMut := false,
        globals := [{ name := "A", mutable := false, init := Expr.i32const 0 }],
        startFunctionBody := [], diagnostics := [] } ∧
    compileEnumStep true
      { previousValue := some "A", previousValueIsMut := false,
        globals := [{ name := "A", mutable := false, init := Expr.i32const 0 }],
        startFunctionBody := [], diagnostics := [] }
      { name := "B", initExpr := none } =
      { previousValue := some "B", previousValueIsMut := false,
        globals := [{ name := "A", mutable := false, init := Expr.i32const 0 },
          { name := "B", mutable := false, init := Expr.i32const 1 }],
        startFunctionBody := [], diagnostics := [] } ∧
    DiagnosticCode.Enum_member_must_have_initializer ∈
      (compileEnumStep true
        { previousValue := some "A", previousValueIsMut := true,
          globals := [{ name := "A", mutable := true, init := Expr.i32const 0 }],
          startFunctionBody := [Expr.setGlobal "A" (Expr.getGlobal "c" .I32)],
          diagnostics := [] }
        { name := "B", initExpr := none }).diagnostics := by
  refine ⟨?_, ?_, ?_⟩
  · exact (compileEnum_missing_initializer_spec true
      { previousValue := none, previousValueIsMut := false, globals := [],
        startFunctionBody := [], diagnostics := [] }
      { name := "A", initExpr := none } rfl).1 rfl
  · have h := (compileEnum_missing_initializer_spec true
      { previousValue := some "A", previousValueIsMut := false,
        globals := [{ name := "A", mutable := false, init := Expr.i32const 0 }],
        startFunctionBody := [], diagnostics := [] }
      { name := "B", initExpr := none } rfl).2.1 "A" 0 rfl rfl rfl
    exact h
  · exact (compileEnum_missing_initializer_spec true
      { previousValue := some "A", previousValueIsMut := true,
        globals := [{ name := "A", mutable := true, init := Expr.i32const 0 }],
        startFunctionBody := [Expr.setGlobal "A" (Expr.getGlobal "c" .I32)],
        diagnostics := [] }
      { name := "B", initExpr := none } rfl).2.2 "A" rfl rfl rfl

/-- The code-unit loop writes nothing below its start offset. -/
theorem writeStringChars_below (units : List Nat) (pos : Nat) (buf : Nat → Nat)
    (q : Nat) (h : q < pos) : writeStringChars units pos buf q = buf q := by
  induction units generalizing pos buf with
  | nil => rfl
  | cons u rest ih =>
    show writeStringChars rest (pos + 2) (writeI16 u buf pos) q = buf q
    rw [ih (pos + 2) _ (by omega)]
    simp only [writeI16]
    rw [if_neg (by omega)]

/-- The code-unit loop writes unit j little-endian at offsets start + 2j and
start + 2j + 1. -/
theorem writeStringChars_at (units : List Nat) (pos : Nat) (buf : Nat → Nat)
    (j i : Nat) (hj : j < units.length) (hi : i < 2) :
    writeStringChars units pos buf (pos + 2 * j + i) =
      units.getD j 0 / 2 ^ (8 * i) % 256 := by
  induction units generalizing pos buf j with
  | nil => simp at hj
  | cons u rest ih =>
    cases j with
    | zero =>
      show writeStringChars rest (pos + 2) (writeI16 u buf pos) (pos + 2 * 0 + i) = _
      rw [writeStringChars_below rest (pos + 2) _ _ (by omega)]
      simp only [writeI16]
      rw [if_pos (by omega)]
      rw [show pos + 2 * 0 + i - pos = i from by omega]
      simp
    | succ j2 =>
      show writeStringChars rest (pos + 2) (writeI16 u buf pos) (pos + 2 * (j2 + 1) + i) = _
      rw [show pos + 2 * (j2 + 1) + i = (pos + 2) + 2 * j2 + i from by ring]
      rw [ih (pos + 2) _ j2 (by simpa using hj)]
      simp

/-- The string buffer holds the GC hook index little-endian at gcHookOffset
when the program has GC and the hook word lies inside the GC header. -/
theorem stringBufferBytes_hook (env : ProgramEnv) (s : List Nat)
    (hgc : env.hasGC = true) (hhook : env.gcHookOffset + 4 ≤ env.gcHeaderSize)
    (i : Nat) (hi : i < 4) :
    stringBufferBytes env s (env.gcHookOffset + i) =
      env.gcHookIndex / 2 ^ (8 * i) % 256 := by
  have hpos : stringGCPart env = env.gcHeaderSize := by simp [stringGCPart, hgc]
  unfold stringBufferBytes
  simp only [hgc, if_true, hpos]
  rw [writeStringChars_below _ _ _ _ (by omega)]
  simp only [writeI32]
  rw [if_neg (by omega), if_pos (by omega)]
  rw [show env.gcHookOffset + i - env.gcHookOffset = i from by omega]

/-- The string buffer holds the string length little-endian at the length
field's offset within the string header, just past the optional GC header. -/
theorem stringBufferBytes_length (env : ProgramEnv) (s : List Nat)
    (hlen : env.stringLengthFieldOffset + 4 ≤ stringHeaderSize env)
    (i : Nat) (hi : i < 4) :
    stringBufferBytes env s (stringGCPart env + env.stringLengthFieldOffset + i) =
      s.length / 2 ^ (8 * i) % 256 := by
  unfold stringBufferBytes
  rw [writeStringChars_below _ _ _ _ (by omega)]
  simp only [writeI32]
  rw [if_pos (by omega)]
  rw [show stringGCPart env + env.stringLengthFieldOffset + i -
    (stringGCPart env + env.stringLengthFieldOffset) = i from by omega]

/-- The string buffer holds code unit j little-endian two bytes each after the
string header. -/
theorem stringBufferBytes_chars (env : ProgramEnv) (s : List Nat)
    (j : Nat) (hj : j < s.length) (i : Nat) (hi : i < 2) :
    stringBufferBytes env s (stringGCPart env + stringHeaderSize env + 2 * j + i) =
      s.getD j 0 / 2 ^ (8 * i) % 256 := by
  unfold stringBufferBytes
  exact writeStringChars_at s _ _ j i hj hi

/-- The pointer expression makeStringPointer returns when its assert passes: an
i64 constant on wasm64 and an i32 constant otherwise. -/
def stringPointerExpr (env : ProgramEnv) (off : Nat) : Expr :=
  if env.isWasm64 then Expr.i64const (off % 2 ^ 32) (off / 2 ^ 32)
  else Expr.i32const off

/-- The state internString leaves behind: the new segment appended to memory
and recorded in the canonicalisation map. -/
def internedState (env : ProgramEnv) (st : CompilerMemory) (s : List Nat) :
    CompilerMemory :=
  { mem := (addMemorySegment st.mem (stringBuf env s) 8).1
    stringSegments := (s, (addMemorySegment st.mem (stringBuf env s) 8).2)
      :: st.stringSegments }

/-- C5: interning a string not yet canonicalised appends exactly one memory
segment and records it under the string's content; a second call with equal
content adds nothing, leaves the state unchanged and returns the same pointer
and expression; the segment's bytes hold the GC hook index inside the optional
GC header, the length as an i32 at the length field's offset within the string
header, and the UTF-16 code units two bytes per unit after the header; the
returned pointer targets the body just past the GC header. -/
theorem ensureStaticString_spec (env : ProgramEnv) (st : CompilerMemory) (s : List Nat)
    (hnew : st.stringSegments.lookup s = none)
    (hhook : env.gcHookOffset + 4 ≤ env.gcHeaderSize)
    (hlen : env.stringLengthFieldOffset + 4 ≤ stringHeaderSize env)
    (hsmall : i64Align st.mem.memoryOffset 8 + stringGCPart env < 2 ^ 32) :
    ∃ st1 p1 e1 seg,
      ensureStaticString env st s = some (st1, p1, e1) ∧
      st1.mem.memorySegments = st.mem.memorySegments ++ [seg] ∧
      st1.stringSegments = (s, seg) :: st.stringSegments ∧
      p1 = seg.offset + stringGCPart env ∧
      ensureStaticString env st1 s = some (st1, p1, e1) ∧
      seg.buffer.size = stringGCPart env + (stringHeaderSize env + s.length * 2) ∧
      (env.hasGC = true → ∀ i, i < 4 →
        seg.buffer.byteAt (env.gcHookOffset + i) =
          env.gcHookIndex / 2 ^ (8 * i) % 256) ∧
      (∀ i, i < 4 →
        seg.buffer.byteAt (stringGCPart env + env.stringLengthFieldOffset + i) =
          s.length / 2 ^ (8 * i) % 256) ∧
      (∀ j, j < s.length → ∀ i, i < 2 →
        seg.buffer.byteAt (stringGCPart env + stringHeaderSize env + 2 * j + i) =
          s.getD j 0 / 2 ^ (8 * i) % 256) := by
  have hseg : (addMemorySegment st.mem (stringBuf env s) 8).2 =
      { buffer := stringBuf env s, offset := i64Align st.mem.memoryOffset 8 } := rfl
  have hoffeq : (addMemorySegment st.mem (stringBuf env s) 8).2.offset =
      i64Align st.mem.memoryOffset 8 := rfl
  have hmsp : ∀ st' : CompilerMemory,
      makeStringPointer env st'
        ((addMemorySegment st.mem (stringBuf env s) 8).2.offset + stringGCPart env) =
      some (st',
        (addMemorySegment st.mem (stringBuf env s) 8).2.offset + stringGCPart env,
        stringPointerExpr env
          ((addMemorySegment st.mem (stringBuf env s) 8).2.offset + stringGCPart env)) := by
    intro st'
    cases hw : env.isWasm64 with
    | false =>
      have hlt : (addMemorySegment st.mem (stringBuf env s) 8).2.offset + stringGCPart env
          < 2 ^ 32 := by rw [hoffeq]; exact hsmall
      have h32 : (2 : Nat) ^ 32 = 4294967296 := by norm_num
      rw [h32] at hlt
      simp [makeStringPointer, stringPointerExpr, hw, hlt]
    | true => simp [makeStringPointer, stringPointerExpr, hw]
  refine ⟨internedState env st s,
    (addMemorySegment st.mem (stringBuf env s) 8).2.offset + stringGCPart env,
    stringPointerExpr env
      ((addMemorySegment st.mem (stringBuf env s) 8).2.offset + stringGCPart env),
    (addMemorySegment st.mem (stringBuf env s) 8).2,
    ?_, rfl, rfl, rfl, ?_, rfl, ?_, ?_, ?_⟩
  · have hred : ensureStaticString env st s = internString env st s := by
      unfold ensureStaticString
      rw [hnew]
    rw [hred]
    exact hmsp _
  · show ensureStaticString env _ s = _
    unfold ensureStaticString
    have hlk : List.lookup s (internedState env st s).stringSegments =
        some (addMemorySegment st.mem (stringBuf env s) 8).2 := by
      simp [internedState, List.lookup]
    rw [hlk]
    exact hmsp _
  · intro hgc i hi
    exact stringBufferBytes_hook env s hgc hhook i hi
  · intro i hi
    exact stringBufferBytes_length env s hlen i hi
  · intro j hj i hi
    exact stringBufferBytes_chars env s j hj i hi

/-- Closed witness for C5: interning the two-unit string [104, 105] in a
GC-enabled program with an 8-byte GC header, hook offset 0, a 4-byte string
header and length field offset 0, starting from the empty state at offset 8. -/
theorem ensureStaticString_spec_witness :
    ∃ st1 p1 e1 seg,
      ensureStaticString
        { hasGC := true, gcHeaderSize := 8, gcHookOffset := 0, gcHookIndex := 42,
          stringInstanceMemoryOffset := 4, stringLengthFieldOffset := 0,
          isWasm64 := false }
        { mem := { memoryOffset := 8, memorySegments := [] }, stringSegments := [] }
        [104, 105] = some (st1, p1, e1) ∧
      st1.mem.memorySegments = [] ++ [seg] ∧
      st1.stringSegments = ([104, 105], seg) :: [] ∧
      p1 = seg.offset + stringGCPart
        { hasGC := true, gcHeaderSize := 8, gcHookOffset := 0, gcHookIndex := 42,
          stringInstanceMemoryOffset := 4, stringLengthFieldOffset := 0,
          isWasm64 := false } ∧
      ensureStaticString
        { hasGC := true, gcHeaderSize := 8, gcHookOffset := 0, gcHookIndex := 42,
          stringInstanceMemoryOffset := 4, stringLengthFieldOffset := 0,
          isWasm64 := false } st1 [104, 105] = some (st1, p1, e1) ∧
      seg.buffer.size = stringGCPart
          { hasGC := true, gcHeaderSize := 8, gcHookOffset := 0, gcHookIndex := 42,
            stringInstanceMemoryOffset := 4, stringLengthFieldOffset := 0,
            isWasm64 := false } +
        (stringHeaderSize
          { hasGC := true, gcHeaderSize := 8, gcHookOffset := 0, gcHookIndex := 42,
            stringInstanceMemoryOffset := 4, stringLengthFieldOffset := 0,
            isWasm64 := false } + ([104, 105] : List Nat).length * 2) ∧
      (({ hasGC := true, gcHeaderSize := 8, gcHookOffset := 0, gcHookIndex := 42,
          stringInstanceMemoryOffset := 4, stringLengthFieldOffset := 0,
          isWasm64 := false } : ProgramEnv).hasGC = true → ∀ i, i < 4 →
        seg.buffer.byteAt (0 + i) = 42 / 2 ^ (8 * i) % 256) ∧
      (∀ i, i < 4 →
        seg.buffer.byteAt (stringGCPart
            { hasGC := true, gcHeaderSize := 8, gcHookOffset := 0, gcHookIndex := 42,
              stringInstanceMemoryOffset := 4, stringLengthFieldOffset := 0,
              isWasm64 := false } + 0 + i) =
          ([104, 105] : List Nat).length / 2 ^ (8 * i) % 256) ∧
      (∀ j, j < ([104, 105] : List Nat).length → ∀ i, i < 2 →
        seg.buffer.byteAt (stringGCPart
            { hasGC := true, gcHeaderSize := 8, gcHookOffset := 0, gcHookIndex := 42,
              stringInstanceMemoryOffset := 4, stringLengthFieldOffset := 0,
              isWasm64 := false } + stringHeaderSize
            { hasGC := true, gcHeaderSize := 8, gcHookOffset := 0, gcHookIndex := 42,
              stringInstanceMemoryOffset := 4, stringLengthFieldOffset := 0,
              isWasm64 := false } + 2 * j + i) =
          ([104, 105] : List Nat).getD j 0 / 2 ^ (8 * i) % 256) :=
  ensureStaticString_spec
    { hasGC := true, gcHeaderSize := 8, gcHookOffset := 0, gcHookIndex := 42,
      stringInstanceMemoryOffset := 4, stringLengthFieldOffset := 0,
      isWasm64 := false }
    { mem := { memoryOffset := 8, memorySegments := [] }, stringSegments := [] }
    [104, 105] rfl (by decide) (by decide) (by decide)

end AScomp

